import Mathlib

/-!
Verification of the FormMonkey correction/prediction pipeline.

This file gives a shallow embedding, in Lean 4, of the validation,
tiering, correction-submission and type-conversion code of the
repository (the shared validation module re-exported through
`frontend/src/components/PreviewSummary.tsx`, `frontend/src/services/api.ts`,
`frontend/src/services/ai.js`, the tiering code of
`docs/correction-workflow-analysis.md`, and the case-conversion helpers of
the shared type-export module), together with theorems settling the
frozen claims about that code.

Conventions of the embedding:
- JavaScript numbers that carry confidence scores are embedded as `ℚ`
  (every literal appearing in the code is an exact decimal, so no
  floating-point rounding is observable in the properties proved here).
- JavaScript regular-expression tests are embedded through a small
  derivative-based regex engine (`RE`, `reMatch`); each source regex is
  transcribed into an `RE` value next to the validator that uses it.
- `new Date(s)` is modelled on the ISO `YYYY-MM-DD` /
  `YYYY-MM-DDTHH:MM:SS(.fff)?Z` grammar, the only grammar the validators
  feed to it; a string outside that grammar is modelled as an invalid
  date (`none`).  Parsed instants are encoded as a single `Nat` whose
  order coincides with `Date.prototype.getTime` order on this grammar.
- the human-readable `message` strings carried by validation issues are
  not modelled: no claim mentions them, and no control flow of the
  source depends on them.
-/

/-! ## A tiny regular-expression engine (Brzozowski derivatives)

JavaScript validators in the source test strings against regex literals.
Each such literal is transcribed below into an `RE` value; `reMatch`
decides whole-string (`^...$`-anchored) matching.
-/

/-- Regular expressions over characters, with character classes given by
decidable predicates. -/
inductive RE where
  | emp : RE
  | eps : RE
  | cls : (Char → Bool) → RE
  | cat : RE → RE → RE
  | alt : RE → RE → RE
  | star : RE → RE

/-- Does the regular expression accept the empty string? -/
def RE.nullable : RE → Bool
  | .emp => false
  | .eps => true
  | .cls _ => false
  | .cat a b => a.nullable && b.nullable
  | .alt a b => a.nullable || b.nullable
  | .star _ => true

/-- Brzozowski derivative of a regular expression by one character. -/
def RE.deriv : RE → Char → RE
  | .emp, _ => .emp
  | .eps, _ => .emp
  | .cls p, c => if p c then .eps else .emp
  | .cat a b, c =>
      if a.nullable then .alt (.cat (a.deriv c) b) (b.deriv c)
      else .cat (a.deriv c) b
  | .alt a b, c => .alt (a.deriv c) (b.deriv c)
  | .star a, c => .cat (a.deriv c) (.star a)

/-- Whole-string matching: the embedding of `/^pat$/.test(s)`. -/
def reMatch (r : RE) (s : String) : Bool :=
  (s.data.foldl RE.deriv r).nullable

/-- Literal character. -/
def RE.chr (c : Char) : RE := .cls (fun d => d = c)

/-- Optional piece (`?` in regex notation, written out). -/
def RE.opt (r : RE) : RE := .alt r .eps

/-- One or more repetitions. -/
def RE.plus (r : RE) : RE := .cat r (.star r)

/-- Exactly `n` repetitions. -/
def RE.pow (r : RE) : Nat → RE
  | 0 => .eps
  | n + 1 => .cat r (RE.pow r n)

/-- Between `lo` and `lo + extra` repetitions. -/
def RE.rep (r : RE) (lo extra : Nat) : RE :=
  .cat (RE.pow r lo) (RE.pow (RE.opt r) extra)

/-- ASCII decimal digit, the `\d` class of the source regexes. -/
def isAsciiDigit (c : Char) : Bool := 48 ≤ c.toNat && c.toNat ≤ 57

/-- The `\s` class of the source regexes (ASCII whitespace; the rare
non-ASCII space code points accepted by JavaScript are not modelled, no
claim exercises them). -/
def isJsSpace (c : Char) : Bool :=
  c.toNat = 32 || (9 ≤ c.toNat && c.toNat ≤ 13)

/-- ASCII letter. -/
def isAsciiLetter (c : Char) : Bool :=
  (65 ≤ c.toNat && c.toNat ≤ 90) || (97 ≤ c.toNat && c.toNat ≤ 122)

/-- ASCII letter or digit. -/
def isAsciiAlnum (c : Char) : Bool := isAsciiLetter c || isAsciiDigit c

/-- Embedding of `String.prototype.trim()` (ASCII whitespace, as above). -/
def jsTrim (s : String) : String :=
  ⟨(s.data.dropWhile isJsSpace).reverse.dropWhile isJsSpace |>.reverse⟩

/-! ## The JavaScript date model

The validators call `new Date(value)` only on strings that already
matched one of the ISO regexes above (or pass arbitrary field text to
`businessRules.contractDates`).  `jsDateParse` models `new Date(s)` on
the ISO date / ISO UTC datetime grammar: it returns `some k` for a
string that parses to a valid instant, where `k` is an order-faithful
encoding of `(year, month, day, hour, minute, second, millisecond)`,
and `none` for an invalid date (`getTime()` equal to `NaN`). -/

/-- Gregorian leap-year test, as used by `Date.UTC`. -/
def isLeapYear (y : Nat) : Bool :=
  (y % 4 = 0 && y % 100 ≠ 0) || y % 400 = 0

/-- Days in a month of the proleptic Gregorian calendar. -/
def daysInMonth (y m : Nat) : Nat :=
  if m = 1 ∨ m = 3 ∨ m = 5 ∨ m = 7 ∨ m = 8 ∨ m = 10 ∨ m = 12 then 31
  else if m = 4 ∨ m = 6 ∨ m = 9 ∨ m = 11 then 30
  else if isLeapYear y then 29 else 28

/-- Value of a list of ASCII digit characters. -/
def digitsVal (l : List Char) : Nat :=
  l.foldl (fun acc c => acc * 10 + (c.toNat - 48)) 0

/-- Take exactly `n` digits, returning their value and the rest. -/
def takeDigits (n : Nat) (l : List Char) : Option (Nat × List Char) :=
  let pre := l.take n
  if pre.length = n && pre.all isAsciiDigit then some (digitsVal pre, l.drop n)
  else none

/-- Encode a date-time tuple into one `Nat`, monotone in lexicographic
order (bases strictly exceed the maximal field values). -/
def dateKey (y m d hh mm ss ms : Nat) : Nat :=
  (((((y * 13 + m) * 32 + d) * 25 + hh) * 60 + mm) * 60 + ss) * 1000 + ms

/-- Parse the clock part `HH:MM:SS(.fff...)?Z` of an ISO datetime,
returning `(hour, minute, second, millisecond)`. -/
def parseClock (l : List Char) : Option (Nat × Nat × Nat × Nat) :=
  match takeDigits 2 l with
  | none => none
  | some (hh, r1) =>
    match r1 with
    | ':' :: r2 =>
      match takeDigits 2 r2 with
      | none => none
      | some (mm, r3) =>
        match r3 with
        | ':' :: r4 =>
          match takeDigits 2 r4 with
          | none => none
          | some (ss, r5) =>
            match r5 with
            | ['Z'] => some (hh, mm, ss, 0)
            | '.' :: r6 =>
              let frac := r6.takeWhile isAsciiDigit
              let rest := r6.dropWhile isAsciiDigit
              -- JavaScript keeps the first three fractional digits as
              -- milliseconds and ignores further precision
              if frac.length = 0 then none
              else if rest = ['Z'] then
                some (hh, mm, ss, digitsVal ((frac.take 3) ++
                  List.replicate (3 - frac.length) '0'))
              else none
            | _ => none
        | _ => none
    | _ => none

/-- Embedding of `new Date(s)` on the ISO grammar described above:
`some k` for a valid instant with order-faithful key `k`, `none` for an
invalid date. -/
def jsDateParse (s : String) : Option Nat :=
  match takeDigits 4 s.data with
  | none => none
  | some (y, r1) =>
    match r1 with
    | '-' :: r2 =>
      match takeDigits 2 r2 with
      | none => none
      | some (m, r3) =>
        match r3 with
        | '-' :: r4 =>
          match takeDigits 2 r4 with
          | none => none
          | some (d, r5) =>
            if 1 ≤ m && m ≤ 12 && 1 ≤ d && d ≤ daysInMonth y m then
              match r5 with
              | [] => some (dateKey y m d 0 0 0 0)
              | 'T' :: r6 =>
                match parseClock r6 with
                | some (hh, mm, ss, ms) =>
                  -- `Date.UTC` field ranges; `24:00:00.000` is the one
                  -- legal hour-24 instant
                  if (hh ≤ 23 || (hh = 24 && mm = 0 && ss = 0 && ms = 0))
                      && mm ≤ 59 && ss ≤ 59 then
                    some (dateKey y m d hh mm ss ms)
                  else none
                | none => none
              | _ => none
            else none
        | _ => none
    | _ => none

/-! ## Validation result types (shared validation module)

Embedding of the `ValidationResult` / `ValidationError` /
`ValidationWarning` interfaces of the shared validation system.  The
human-readable `message` (and `suggestion`) strings are not modelled. -/

/-- Issue severity of a `ValidationError` (the source's string union
`'error' | 'warning' | 'info'`; the spec calls `error` "critical"). -/
inductive Severity where
  | error : Severity
  | warning : Severity
  | info : Severity
deriving DecidableEq, Repr

/-- A blocking-capable validation issue (`ValidationError` interface). -/
structure ValidationError where
  field : String
  code : String
  severity : Severity
deriving DecidableEq, Repr

/-- A non-blocking validation issue (`ValidationWarning` interface). -/
structure ValidationWarning where
  field : String
  code : String
deriving DecidableEq, Repr

/-- Result of a validator (`ValidationResult<T>` interface).  `data` is
`none` where the source leaves `data` undefined. -/
structure ValidationResult (α : Type) where
  isValid : Bool
  data : Option α
  errors : List ValidationError
  warnings : List ValidationWarning
deriving DecidableEq, Repr

/-- The `FieldType` enum of the shared types module. -/
inductive FieldType where
  | text | date | currency | number | email | phone
  | address | name | signature | checkbox | party | payment
deriving DecidableEq, Repr

/-- The `FieldCategory` enum of the shared types module. -/
inductive FieldCategory where
  | personal | legal | financial | dates | parties | other
deriving DecidableEq, Repr

/-- The `ParsedField` interface (optional UI-only members `suggestions`,
`validationMessage`, `isSaving`, `lastSaved` are not modelled; no
embedded code reads them). -/
structure ParsedField where
  id : String
  name : String
  value : String
  originalValue : String
  confidence : ℚ
  category : FieldCategory
  type : FieldType
  isModified : Bool
deriving DecidableEq, Repr

/-! ## Transcription of the source regex literals -/

/-- Sequential composition of a list of regex pieces. -/
def RE.seq (l : List RE) : RE := l.foldr RE.cat RE.eps

/-- Character class listed by code points. -/
def RE.codes (l : List Nat) : RE := .cls (fun c => l.contains c.toNat)

/-- Local-part character set of the zod email grammar,
`[A-Z0-9_'+\-\.]` with the `i` flag (39 is the apostrophe). -/
def zodEmailLocalChar (c : Char) : Bool :=
  isAsciiAlnum c || c.toNat = 95 || c.toNat = 39 || c.toNat = 43 ||
    c.toNat = 45 || c.toNat = 46

/-- Final local-part character set `[A-Z0-9_+\-]` (no dot, no
apostrophe) of the zod email grammar. -/
def zodEmailLocalEndChar (c : Char) : Bool :=
  isAsciiAlnum c || c.toNat = 95 || c.toNat = 43 || c.toNat = 45

/-- Embedding of zod's `z.string().email()` grammar
`/^(?!\.)(?!.*\.\.)([A-Z0-9_'+\-\.]*)[A-Z0-9_+\-]@([A-Z0-9][A-Z0-9\-]*\.)+[A-Z]{2,}$/i`;
the two look-aheads (no leading dot, no doubled dot) are compiled away
into the structure of the local part. -/
def zodEmailRE : RE :=
  let nd : RE := .cls (fun c => zodEmailLocalChar c && c.toNat ≠ 46)
  let dot : RE := .chr '.'
  -- strings over the local character set with no two consecutive dots
  let noDoubleDot : RE := .cat (.star (.alt nd (.cat dot nd))) (.opt dot)
  let localPart : RE :=
    .alt (.cls zodEmailLocalEndChar)
      (.seq [nd, noDoubleDot, .cls zodEmailLocalEndChar])
  let label : RE := .cat (.cls isAsciiAlnum)
    (.star (.alt (.cls isAsciiAlnum) (.chr '-')))
  let tld : RE := .cat (.cls isAsciiLetter) (.plus (.cls isAsciiLetter))
  .seq [localPart, .chr '@', .plus (.cat label dot), tld]

/-- Embedding of the phone regex
`/^[\+]?[(]?[\+]?\d{1,4}[)]?[-\s\.]?\(?\d{1,3}\)?[-\s\.]?\d{1,4}[-\s\.]?\d{1,4}[-\s\.]?\d{1,9}$/`. -/
def phoneRE : RE :=
  let d : RE := .cls isAsciiDigit
  let sep : RE := .opt (.cls (fun c => c.toNat = 45 || isJsSpace c || c.toNat = 46))
  .seq [.opt (.chr '+'), .opt (.chr '('), .opt (.chr '+'), .rep d 1 3,
    .opt (.chr ')'), sep, .opt (.chr '('), .rep d 1 2, .opt (.chr ')'), sep,
    .rep d 1 3, sep, .rep d 1 3, sep, .rep d 1 8]

/-- Embedding of the plain ISO date regex `/^\d{4}-\d{2}-\d{2}$/`. -/
def isoDateRE : RE :=
  let d : RE := .cls isAsciiDigit
  .seq [.pow d 4, .chr '-', .pow d 2, .chr '-', .pow d 2]

/-- Embedding of zod's `z.string().datetime()` grammar
`/^\d{4}-\d{2}-\d{2}T\d{2}:\d{2}:\d{2}(\.\d+)?Z$/` (default options:
any precision, no offset). -/
def zodDatetimeRE : RE :=
  let d : RE := .cls isAsciiDigit
  .seq [.pow d 4, .chr '-', .pow d 2, .chr '-', .pow d 2, .chr 'T',
    .pow d 2, .chr ':', .pow d 2, .chr ':', .pow d 2,
    .opt (.cat (.chr '.') (.plus d)), .chr 'Z']

/-- Embedding of the currency regex `/^\d+(\.\d{1,2})?$/` applied after
stripping `[$,\s]`. -/
def currencyRE : RE :=
  let d : RE := .cls isAsciiDigit
  .cat (.plus d) (.opt (.cat (.chr '.') (.rep d 1 1)))

/-- Embedding of the number regex `/^[\d,]+(\.\d+)?$/` of
`services/api.ts` (applied after stripping `\s`). -/
def numberRE : RE :=
  let dc : RE := .cls (fun c => isAsciiDigit c || c.toNat = 44)
  .cat (.plus dc) (.opt (.cat (.chr '.') (.plus (.cls isAsciiDigit))))

/-- Embedding of the simple email regex `/^[^\s@]+@[^\s@]+\.[^\s@]+$/`
of `services/api.ts`. -/
def simpleEmailRE : RE :=
  let nsa : RE := .cls (fun c => !(isJsSpace c) && c.toNat ≠ 64)
  .seq [.plus nsa, .chr '@', .plus nsa, .chr '.', .plus nsa]

/-! ## Basic field validators (`fieldValidators` of the shared module) -/

namespace fieldValidators

/-- Embedding of `fieldValidators.email`: zod email schema test. -/
def email (value : String) : ValidationResult String :=
  if reMatch zodEmailRE value then
    ⟨true, some value, [], []⟩
  else
    ⟨false, none, [⟨"email", "INVALID_EMAIL", .error⟩], []⟩

/-- Embedding of `fieldValidators.phone`: basic phone regex test. -/
def phone (value : String) : ValidationResult String :=
  if reMatch phoneRE value then
    ⟨true, some value, [], []⟩
  else
    ⟨false, none, [⟨"phone", "INVALID_PHONE", .error⟩], []⟩

/-- Embedding of `fieldValidators.date`: the zod schema
`z.string().datetime().or(z.string().regex(/^\d{4}-\d{2}-\d{2}$/))`
followed by the `new Date(value)` NaN check. -/
def date (value : String) : ValidationResult String :=
  if reMatch zodDatetimeRE value || reMatch isoDateRE value then
    if (jsDateParse value).isNone then
      ⟨false, none, [⟨"date", "INVALID_DATE", .error⟩], []⟩
    else
      ⟨true, some value, [], []⟩
  else
    ⟨false, none, [⟨"date", "INVALID_DATE_FORMAT", .error⟩], []⟩

/-- Embedding of `fieldValidators.text`.  The source guards both length
checks with JavaScript truthiness (`if (minLength && ...)`), so an
absent bound and a zero bound both skip the check. -/
def text (value : String) (minLength maxLength : Option Nat) :
    ValidationResult String :=
  let shortErr : List ValidationError :=
    match minLength with
    | some m => if m ≠ 0 ∧ value.length < m then
        [⟨"text", "TEXT_TOO_SHORT", .error⟩] else []
    | none => []
  let longErr : List ValidationError :=
    match maxLength with
    | some m => if m ≠ 0 ∧ value.length > m then
        [⟨"text", "TEXT_TOO_LONG", .error⟩] else []
    | none => []
  let errors := shortErr ++ longErr
  ⟨errors.length = 0, if errors.length = 0 then some value else none,
    errors, []⟩

/-- Embedding of `fieldValidators.currency`: strip `[$,\s]`, then test
`/^\d+(\.\d{1,2})?$/`. -/
def currency (value : String) : ValidationResult String :=
  let cleanValue : String :=
    ⟨value.data.filter (fun c => !(c.toNat = 36 || c.toNat = 44 || isJsSpace c))⟩
  if reMatch currencyRE cleanValue then
    ⟨true, some value, [], []⟩
  else
    ⟨false, none, [⟨"currency", "INVALID_CURRENCY", .error⟩], []⟩

end fieldValidators

/-! ## Business-rule validators (`businessRules` of the shared module) -/

namespace businessRules

/-- Embedding of `businessRules.contractDates`: both dates must parse
(`isNaN` check on `new Date(...)`), and `start >= end` is rejected. -/
def contractDates (startDate endDate : String) : ValidationResult Unit :=
  let errors : List ValidationError :=
    match jsDateParse startDate, jsDateParse endDate with
    | some s, some e =>
      if s ≥ e then [⟨"dates", "INVALID_DATE_RANGE", .error⟩] else []
    | _, _ => [⟨"dates", "INVALID_DATE_FORMAT", .error⟩]
  ⟨errors.length = 0, none, errors, []⟩

end businessRules

/-! ## Composite validators of the shared module -/

/-- Embedding of `validateField`: an empty (or whitespace-only) value
short-circuits to a valid result with no issues; otherwise the value is
checked by the type-specific validator, whose errors are re-attributed
to the field's name. -/
def validateField (field : ParsedField) : ValidationResult ParsedField :=
  -- `if (!field.value?.trim()) return { isValid: true, data: field, ... }`
  if jsTrim field.value = "" then
    ⟨true, some field, [], []⟩
  else
    let typeValidation : ValidationResult String :=
      match field.type with
      | .email => fieldValidators.email field.value
      | .phone => fieldValidators.phone field.value
      | .date => fieldValidators.date field.value
      | .currency => fieldValidators.currency field.value
      -- TEXT, NAME, ADDRESS and every remaining type fall through to
      -- the plain text validator with no length bounds
      | _ => fieldValidators.text field.value none none
    let errors : List ValidationError :=
      if !typeValidation.isValid then
        typeValidation.errors.map (fun e => { e with field := field.name })
      else []
    let warnings := typeValidation.warnings
    ⟨errors.length = 0, if errors.length = 0 then some field else none,
      errors, warnings⟩

/-- The `AIPredictedField` interface.  `source` (and `correctionReason`
below) are embedded as strings, matching what the enum-membership
checks of the validators see at runtime when the values arrive from
JSON.  Optional members (`boundingBox`, `contextualText`,
`alternativePredictions`) are not modelled; no embedded code reads
them. -/
structure AIPredictedField where
  fieldId : String
  label : String
  predictedValue : String
  confidence : ℚ
  fieldType : FieldType
  source : String
deriving DecidableEq, Repr

/-- The `validSources` list of `validateAIPrediction` (the four
`PredictionSource` enum values). -/
def validSources : List String := ["regex", "ml_model", "manual", "user_input"]

/-- Embedding of `validateAIPrediction`: confidence must lie in `[0,1]`
and the source must be one of the enum values. -/
def validateAIPrediction (prediction : AIPredictedField) :
    ValidationResult AIPredictedField :=
  let confErr : List ValidationError :=
    if prediction.confidence < 0 ∨ prediction.confidence > 1 then
      [⟨"confidence", "INVALID_CONFIDENCE", .error⟩] else []
  let srcErr : List ValidationError :=
    if !(validSources.contains prediction.source) then
      [⟨"source", "INVALID_SOURCE", .error⟩] else []
  let errors := confErr ++ srcErr
  ⟨errors.length = 0,
    if errors.length = 0 then some prediction else none, errors, []⟩

/-- The `UserCorrection` interface (optional `userFeedback` member not
modelled). -/
structure UserCorrection where
  originalPrediction : AIPredictedField
  correctedValue : String
  correctionReason : String
  timestamp : String
deriving DecidableEq, Repr

/-- The `validReasons` list of `validateUserCorrection` (the six
`CorrectionReason` enum values). -/
def validReasons : List String :=
  ["incorrect_value", "incomplete_value", "formatting_error",
   "wrong_field", "duplicate_entry", "other"]

/-- Embedding of `validateUserCorrection`: the reason must be one of the
enum values, and the corrected value must differ from the original
prediction (the no-change case is pushed as a severity-`error` issue). -/
def validateUserCorrection (correction : UserCorrection) :
    ValidationResult UserCorrection :=
  let reasonErr : List ValidationError :=
    if !(validReasons.contains correction.correctionReason) then
      [⟨"correctionReason", "INVALID_REASON", .error⟩] else []
  let noChangeErr : List ValidationError :=
    if correction.correctedValue = correction.originalPrediction.predictedValue then
      [⟨"correctedValue", "NO_CHANGE", .error⟩] else []
  let errors := reasonErr ++ noChangeErr
  ⟨errors.length = 0,
    if errors.length = 0 then some correction else none, errors, []⟩

/-! ## The per-field validator of `frontend/src/services/api.ts`

This second `validateField` returns an error message string, or `null`
when the field is acceptable.  Message strings are kept verbatim here
(they are the whole observable result of this function). -/

/-- Embedding of `validateField` of `services/api.ts`. -/
def apiValidateField (field : ParsedField) : Option String :=
  let value := jsTrim field.value
  -- `if (!value) return null; // Empty values are allowed`
  if value = "" then none
  else
    match field.type with
    | .date =>
      if !(reMatch isoDateRE value) then some "Please use YYYY-MM-DD format"
      else if (jsDateParse value).isNone then some "Invalid date"
      else none
    | .number =>
      if !(reMatch numberRE ⟨value.data.filter (fun c => !(isJsSpace c))⟩) then
        some "Please enter a valid number"
      else none
    | .text => none
    | .email =>
      if !(reMatch simpleEmailRE value) then
        some "Please enter a valid email address"
      else none
    -- the switch has no default clause: any other type is accepted
    | _ => none

/-! ## The AI service wrappers of `frontend/src/services/ai.js`

`ai.js` imports its validators from `frontend/src/utils/validation.js`
— not from the shared validation module: those are pass-throughs that
return the data unchanged after throwing on `null` / non-object input
(`if (!data || typeof data !== 'object') throw ...; return data`).
Both service functions wrap their whole body in `try { ... } catch`, so
a JavaScript computation that can throw is embedded as `Except String`:
the `.error` constructor stands for any thrown exception (network
failure of `fetch`, JSON parse failure of `response.json()`, a
`TypeError` on a malformed shape, or a throw from a pass-through
validator). -/

/-- Runtime data as the pass-through validators of
`utils/validation.js` see it: either a proper object of the expected
shape, or `null` / a non-object value (the `!data ||
typeof data !== 'object'` case). -/
inductive JsData (α : Type) where
  | value : α → JsData α
  | invalid : JsData α
deriving DecidableEq, Repr

namespace utilsValidation

/-- Embedding of `validateAIPrediction` of `utils/validation.js`: a
pass-through that throws on `null` / non-object data and otherwise
returns the data unchanged — it computes no validation result. -/
def validateAIPrediction :
    JsData AIPredictedField → Except String AIPredictedField
  | .value d => .ok d
  | .invalid => .error "Invalid AI prediction data"

/-- Embedding of `validateUserCorrection` of `utils/validation.js`: a
pass-through that throws on `null` / non-object data and otherwise
returns the data unchanged — it computes no validation result. -/
def validateUserCorrection :
    JsData UserCorrection → Except String UserCorrection
  | .value d => .ok d
  | .invalid => .error "Invalid user correction data"

end utilsValidation

/-- Outcome of the `fetch` + `response.json()` + shape access inside
`getAIPredictions`: either a predictions array (whose items are
arbitrary runtime data), or a thrown exception. -/
inductive FetchOutcome where
  | ok : List (JsData AIPredictedField) → FetchOutcome
  | jsError : String → FetchOutcome
deriving DecidableEq, Repr

/-- The `try`-block body of `getAIPredictions`: fetch the predictions
and map the pass-through validator over them (a throw on any item
propagates out of the `map`).  An exception anywhere in the body is an
`Except.error`. -/
def getAIPredictionsBody :
    FetchOutcome → Except String (List AIPredictedField)
  | .ok predictions => predictions.mapM utilsValidation.validateAIPrediction
  | .jsError msg => .error msg

/-- Embedding of `getAIPredictions`: the `catch` clause logs the error
and returns the empty predictions list. -/
def getAIPredictions (response : FetchOutcome) : List AIPredictedField :=
  match getAIPredictionsBody response with
  | .ok v => v
  | .error _ => []

/-- Outcome of the POST + `response.json()` inside `submitCorrection`:
either the parsed response body (arbitrary runtime data), or a thrown
exception. -/
inductive PostOutcome where
  | ok : JsData UserCorrection → PostOutcome
  | jsError : String → PostOutcome
deriving DecidableEq, Repr

/-- The `try`-block body of `submitCorrection`: the input correction
passes through `validateUserCorrection` of `utils/validation.js` (the
pass-through's result is what gets serialized into the POST request),
and the parsed response passes through `validateUserCorrection` again
and is returned unchanged — no acceptance status or issue list is
computed anywhere on this path. -/
def submitCorrectionBody (correction : JsData UserCorrection) :
    PostOutcome → Except String UserCorrection :=
  fun response =>
    match utilsValidation.validateUserCorrection correction with
    | .error msg => .error msg
    | .ok _ =>
      match response with
      | .ok data => utilsValidation.validateUserCorrection data
      | .jsError msg => .error msg

/-- Embedding of `submitCorrection`: the `catch` clause logs the error
and returns `null` (embedded as `none`). -/
def submitCorrection (correction : JsData UserCorrection)
    (response : PostOutcome) : Option UserCorrection :=
  match submitCorrectionBody correction response with
  | .ok v => some v
  | .error _ => none

/-! ## Correction tiering (`calculatePriority` of the correction
workflow module, and `getConfidenceLevel` of the shared constants) -/

namespace CorrectionProcessor

/-- The three processing tiers of `calculatePriority` (the spec's
`Immediate`, `Batched` and `Deferred` tiers, in that order). -/
inductive Priority where
  | immediate : Priority
  | batch : Priority
  | learning : Priority
deriving DecidableEq, Repr

/-- The `CorrectionReason.CRITICAL_ERROR` enum value referenced by the
tiering code. -/
def CRITICAL_ERROR : String := "critical_error"

/-- Snapshot of the original prediction as the tiering code reads it
(only `confidenceScore` is consulted). -/
structure OriginalPrediction where
  confidenceScore : ℚ
deriving DecidableEq, Repr

/-- A correction as the tiering code reads it (only the original
prediction's confidence and the reason code are consulted). -/
structure UserCorrection where
  originalPrediction : OriginalPrediction
  correctionReason : String
deriving DecidableEq, Repr

/-- Embedding of `calculatePriority`: confidence below `0.5` or a
critical-error reason routes to `immediate`; otherwise confidence below
`0.8` routes to `batch`, and everything else to `learning`. -/
def calculatePriority (correction : UserCorrection) : Priority :=
  let confidence := correction.originalPrediction.confidenceScore
  let reason := correction.correctionReason
  if confidence < 0.5 ∨ reason = CRITICAL_ERROR then .immediate
  else if confidence < 0.8 then .batch
  else .learning

end CorrectionProcessor

/-- The `ConfidenceLevel` display classification of the shared
constants module. -/
inductive ConfidenceLevel where
  | high | medium | low
deriving DecidableEq, Repr

/-- Embedding of `getConfidenceLevel` of the shared constants module. -/
def getConfidenceLevel (confidence : ℚ) : ConfidenceLevel :=
  if confidence > 0.8 then .high
  else if confidence ≥ 0.4 then .medium
  else .low

/-! ## The Version Store

The repository ships no Version Store implementation (the spec's §4.7
contract has only a design sketch outside the source tree), so the
store is modelled directly from the spec's words. -/

namespace VersionStore

/-- Modelled from the spec: the `producedBy` provenance tag of a
`FieldVersion` (`prediction | correction | rollback`). -/
inductive ProducedBy where
  | prediction : ProducedBy
  | correction : ProducedBy
  | rollback : ProducedBy
deriving DecidableEq, Repr

/-- Modelled from the spec: a `FieldVersion` record — `fieldId`,
per-field monotonically increasing `versionId`, `value`, `confidence`,
`producedBy`, `timestamp`, and `previousVersionId` (null for the first
version). -/
structure FieldVersion where
  fieldId : String
  versionId : Nat
  value : String
  confidence : ℚ
  producedBy : ProducedBy
  timestamp : Nat
  previousVersionId : Option Nat
deriving DecidableEq, Repr

/-- Modelled from the spec: errors of the rollback contract —
`UnknownField` when the field has no history, `VersionNotFound` when
the requested target version does not exist. -/
inductive RollbackError where
  | unknownField : RollbackError
  | versionNotFound : RollbackError
deriving DecidableEq, Repr

/-- Next monotonic version id for a field's chronological history. -/
def nextVersionId (history : List FieldVersion) : Nat :=
  match history.getLast? with
  | none => 0
  | some v => v.versionId + 1

/-- Modelled from the spec: `append(fieldId, value, confidence,
producedBy)` — always appends a fresh monotonic version at the end of
the field's history, never overwrites, and links `previousVersionId` to
the previous latest version. -/
def append (fieldId : String) (history : List FieldVersion) (value : String)
    (confidence : ℚ) (producedBy : ProducedBy) (timestamp : Nat) :
    List FieldVersion :=
  history ++ [⟨fieldId, nextVersionId history, value, confidence, producedBy,
    timestamp, (history.getLast?).map (·.versionId)⟩]

/-- Modelled from the spec: resolution of the rollback target — the
supplied `targetVersionId` when present (`VersionNotFound` if absent
from the history), otherwise the version immediately preceding the
current latest (which does not exist for a single-version history). -/
def rollbackTarget (history : List FieldVersion) :
    Option Nat → Except RollbackError FieldVersion
  | some t =>
    match history.find? (fun v => v.versionId = t) with
    | some v => .ok v
    | none => .error .versionNotFound
  | none =>
    match history.dropLast.getLast? with
    | some v => .ok v
    | none => .error .versionNotFound

/-- Modelled from the spec: `rollback(fieldId, targetVersionId?)` —
fails with `UnknownField` on an empty history, never deletes or edits
history, and appends a new version whose value equals the target
version's value with `producedBy = rollback`. -/
def rollback (fieldId : String) (history : List FieldVersion)
    (targetVersionId : Option Nat) (timestamp : Nat) :
    Except RollbackError (List FieldVersion) :=
  if history.isEmpty then .error .unknownField
  else
    match rollbackTarget history targetVersionId with
    | .error e => .error e
    | .ok target =>
      .ok (append fieldId history target.value target.confidence
        .rollback timestamp)

end VersionStore

/-! ## Case conversion (`toSnakeCase` / `toCamelCase` of the shared
type-export module)

JSON-like values are embedded as `JValue`; strings (object keys) are
embedded as lists of UTF-16 code units (`List Nat`), which is what the
JavaScript regex replacements operate on.  An `atom` stands for any
JavaScript primitive (string, number, boolean or null): the conversion
functions copy primitives unchanged and never inspect them. -/

/-- JSON-like values: primitives, objects (ordered key/value lists, the
source iterates `Object.keys` in insertion order) and arrays. -/
inductive JValue where
  | atom : Nat → JValue
  | obj : List (List Nat × JValue) → JValue
  | arr : List JValue → JValue
deriving Repr

/-- Embedding of `key.replace(/[A-Z]/g, l => '_' + l.toLowerCase())`:
each ASCII capital becomes an underscore (code 95) plus its lowercase
form. -/
def snakeKeyCodes : List Nat → List Nat
  | [] => []
  | c :: rest =>
    if 65 ≤ c ∧ c ≤ 90 then 95 :: (c + 32) :: snakeKeyCodes rest
    else c :: snakeKeyCodes rest

/-- Embedding of `key.replace(/_([a-z])/g, (_, l) => l.toUpperCase())`:
a left-to-right scan replacing each underscore-lowercase pair by the
capital letter. -/
def camelKeyCodes : List Nat → List Nat
  | [] => []
  | [c] => [c]
  | c1 :: c2 :: rest =>
    if c1 = 95 ∧ 97 ≤ c2 ∧ c2 ≤ 122 then (c2 - 32) :: camelKeyCodes rest
    else c1 :: camelKeyCodes (c2 :: rest)

/-- Code units of the decimal representation of an array index, as
produced by `Object.keys` on an array. -/
def natKeyCodes (n : Nat) : List Nat := (toString n).data.map Char.toNat

mutual

/-- Embedding of `toSnakeCase` applied to an object's key/value entries:
each key is snake-cased and each value converted by the `forEach`
body. -/
def toSnakeCase : List (List Nat × JValue) → List (List Nat × JValue)
  | [] => []
  | (k, v) :: rest => (snakeKeyCodes k, snakeValue v) :: toSnakeCase rest

/-- The per-value branch of the `toSnakeCase` loop body: plain (non-
array) objects recurse, arrays map their items, primitives are
copied. -/
def snakeValue : JValue → JValue
  | .obj kvs => .obj (toSnakeCase kvs)
  | .arr xs => .arr (snakeItems xs)
  | .atom a => .atom a

def snakeItems : List JValue → List JValue
  | [] => []
  | x :: rest => snakeItem x :: snakeItems rest

/-- Embedding of the array-item conversion
`typeof item === 'object' && item !== null ? toSnakeCase(item) : item`:
note that an *array* item is also `typeof 'object'`, so `toSnakeCase`
iterates its `Object.keys` (the decimal indices) and returns a plain
object keyed by those indices. -/
def snakeItem : JValue → JValue
  | .obj kvs => .obj (toSnakeCase kvs)
  | .arr xs => .obj (snakeEnum 0 xs)
  | .atom a => .atom a

/-- The `toSnakeCase` loop applied to an array's index keys. -/
def snakeEnum : Nat → List JValue → List (List Nat × JValue)
  | _, [] => []
  | i, x :: rest => (snakeKeyCodes (natKeyCodes i), snakeValue x) :: snakeEnum (i + 1) rest

end

mutual

/-- Embedding of `toCamelCase` applied to an object's key/value
entries, the mirror image of `toSnakeCase`. -/
def toCamelCase : List (List Nat × JValue) → List (List Nat × JValue)
  | [] => []
  | (k, v) :: rest => (camelKeyCodes k, camelValue v) :: toCamelCase rest

def camelValue : JValue → JValue
  | .obj kvs => .obj (toCamelCase kvs)
  | .arr xs => .arr (camelItems xs)
  | .atom a => .atom a

def camelItems : List JValue → List JValue
  | [] => []
  | x :: rest => camelItem x :: camelItems rest

def camelItem : JValue → JValue
  | .obj kvs => .obj (toCamelCase kvs)
  | .arr xs => .obj (camelEnum 0 xs)
  | .atom a => .atom a

def camelEnum : Nat → List JValue → List (List Nat × JValue)
  | _, [] => []
  | i, x :: rest => (camelKeyCodes (natKeyCodes i), camelValue x) :: camelEnum (i + 1) rest

end

/-- ASCII-letter code unit. -/
def isLetterCode (c : Nat) : Bool :=
  (65 ≤ c && c ≤ 90) || (97 ≤ c && c ≤ 122)

/-- A camelCase identifier as the claim describes it: non-empty, only
ASCII letters, lowercase first letter. -/
def camelIdent (k : List Nat) : Bool :=
  match k with
  | [] => false
  | c :: rest => (97 ≤ c && c ≤ 122) && rest.all isLetterCode

mutual

/-- The claim's hypothesis, literally: every object key, at every
nesting level (including objects inside arrays), is a camelCase
identifier.  Arrays impose no condition of their own. -/
def claimKeysObj : List (List Nat × JValue) → Bool
  | [] => true
  | (k, v) :: rest => camelIdent k && claimKeysVal v && claimKeysObj rest

def claimKeysVal : JValue → Bool
  | .atom _ => true
  | .obj kvs => claimKeysObj kvs
  | .arr xs => claimKeysItems xs

def claimKeysItems : List JValue → Bool
  | [] => true
  | x :: rest => claimKeysVal x && claimKeysItems rest

end

mutual

/-- The amended hypothesis: every object key is a camelCase identifier
and, additionally, no array directly contains an array (array elements
are primitives or objects). -/
def goodObj : List (List Nat × JValue) → Bool
  | [] => true
  | (k, v) :: rest => camelIdent k && goodValue v && goodObj rest

def goodValue : JValue → Bool
  | .atom _ => true
  | .obj kvs => goodObj kvs
  | .arr xs => goodItems xs

def goodItems : List JValue → Bool
  | [] => true
  | x :: rest => goodItem x && goodItems rest

/-- Array elements under the amended hypothesis: primitives and objects
only (a directly nested array is excluded). -/
def goodItem : JValue → Bool
  | .atom _ => true
  | .obj kvs => goodObj kvs
  | .arr _ => false

end

/-- Embedding of the confidence constraint of `ExtractedFieldSchema` in
`packages/validators` (`confidence: z.number().min(0).max(1)`). -/
def extractedFieldConfidenceOk (c : ℚ) : Bool := 0 ≤ c ∧ c ≤ 1

/-! ## Theorems

Shared helper lemmas first, then one theorem per claim (with its
counterexample and witness where required). -/

/-- Helper: a validator result built from an error list all of whose
issues have severity `error` is accepted exactly when that list has no
severity-`error` issue. -/
theorem valres_accepted_iff (E : List ValidationError)
    (hall : ∀ e ∈ E, e.severity = Severity.error) :
    (decide (E.length = 0) = true ↔
      E.filter (fun e => e.severity == Severity.error) = []) := by
  cases E with
  | nil => simp
  | cons e rest =>
    have he := hall e (List.mem_cons_self e rest)
    simp [he]

/-- Counterexample for claim C1: a party-name field (a legally required
identity field per the spec) corrected to the empty string is accepted
by `validateField` with an empty issue list, and by the `api.ts`
validator with no message — not rejected with a critical issue. -/
theorem C1_counterexample :
    (validateField ⟨"2", "Employer", "", "ABC Corporation", 0.95,
      .parties, .name, true⟩).isValid = true ∧
    (validateField ⟨"2", "Employer", "", "ABC Corporation", 0.95,
      .parties, .name, true⟩).errors = [] ∧
    apiValidateField ⟨"2", "Employer", "", "ABC Corporation", 0.95,
      .parties, .name, true⟩ = none := by
  refine ⟨rfl, rfl, rfl⟩

/-- Claim C1 (corrected).  The validators have no legally-required
emptiness check: for every field whose corrected value is empty or
whitespace-only — whatever its type, party names, dates and signatures
included — `validateField` skips validation and accepts it with an
empty issue list, and the `api.ts` validator returns no message. -/
theorem C1_empty_value_always_accepted (f : ParsedField)
    (h : jsTrim f.value = "") :
    validateField f = ⟨true, some f, [], []⟩ ∧ apiValidateField f = none := by
  constructor
  · unfold validateField
    rw [h]
    simp
  · unfold apiValidateField
    rw [h]
    simp

/-- Witness for C1 at a concrete whitespace-only signature field. -/
theorem C1_empty_value_always_accepted_witness :
    validateField ⟨"9", "Signature", "  ", "J. D.", 0.8, .legal,
        .signature, true⟩ =
      ⟨true, some ⟨"9", "Signature", "  ", "J. D.", 0.8, .legal,
        .signature, true⟩, [], []⟩ ∧
    apiValidateField ⟨"9", "Signature", "  ", "J. D.", 0.8, .legal,
        .signature, true⟩ = none :=
  C1_empty_value_always_accepted
    ⟨"9", "Signature", "  ", "J. D.", 0.8, .legal, .signature, true⟩ rfl

/-- Counterexample for claim C2: a correction whose value equals the
original prediction is rejected (`isValid = false`) with a
severity-`error` `NO_CHANGE` issue and no warnings — not accepted with
a warning. -/
theorem C2_counterexample :
    validateUserCorrection ⟨⟨"1", "Employee Name", "John Doe", 0.98,
        .name, "ml_model"⟩, "John Doe", "incorrect_value", "t0"⟩ =
      ⟨false, none, [⟨"correctedValue", "NO_CHANGE", .error⟩], []⟩ := by
  rfl

/-- Claim C2 (corrected).  A no-op correction (corrected value equal to
the original predicted value, with a valid reason code) is blocking,
not informational: `validateUserCorrection` rejects it with a single
severity-`error` `NO_CHANGE` issue and an empty warning list. -/
theorem C2_noop_correction_rejected (c : UserCorrection)
    (hreason : validReasons.contains c.correctionReason = true)
    (hnoop : c.correctedValue = c.originalPrediction.predictedValue) :
    validateUserCorrection c =
      ⟨false, none, [⟨"correctedValue", "NO_CHANGE", .error⟩], []⟩ := by
  unfold validateUserCorrection
  rw [hreason, hnoop]
  simp

/-- Witness for C2 at a concrete no-op correction. -/
theorem C2_noop_correction_rejected_witness :
    validateUserCorrection ⟨⟨"4", "Annual Salary", "85000", 0.88,
        .number, "regex"⟩, "85000", "formatting_error", "t1"⟩ =
      ⟨false, none, [⟨"correctedValue", "NO_CHANGE", .error⟩], []⟩ :=
  C2_noop_correction_rejected
    ⟨⟨"4", "Annual Salary", "85000", 0.88, .number, "regex"⟩, "85000",
      "formatting_error", "t1"⟩ rfl rfl

/-- Claim C3 (confirmed).  Tier classification is a pure function of
the original prediction's confidence and the correction's reason code:
`immediate` exactly when confidence is below `0.5` or the reason is
`critical_error` (the reason code overrides confidence); otherwise
confidence in `[0.5, 0.8)` gives `batch` and confidence at least `0.8`
gives `learning` (the spec's Deferred tier). -/
theorem C3_calculatePriority_spec (c : CorrectionProcessor.UserCorrection) :
    (CorrectionProcessor.calculatePriority c = .immediate ↔
      (c.originalPrediction.confidenceScore < 0.5 ∨
        c.correctionReason = CorrectionProcessor.CRITICAL_ERROR)) ∧
    (c.correctionReason ≠ CorrectionProcessor.CRITICAL_ERROR →
      ((0.5 ≤ c.originalPrediction.confidenceScore ∧
          c.originalPrediction.confidenceScore < 0.8) →
        CorrectionProcessor.calculatePriority c = .batch) ∧
      (0.8 ≤ c.originalPrediction.confidenceScore →
        CorrectionProcessor.calculatePriority c = .learning)) := by
  have hcalc : CorrectionProcessor.calculatePriority c =
      if c.originalPrediction.confidenceScore < 0.5 ∨
          c.correctionReason = CorrectionProcessor.CRITICAL_ERROR then .immediate
      else if c.originalPrediction.confidenceScore < 0.8 then .batch
      else .learning := rfl
  rw [hcalc]
  split_ifs with h1 h2
  · exact ⟨⟨fun _ => h1, fun _ => rfl⟩, fun hr =>
      ⟨fun hrange => absurd hrange.1 (not_le.mpr (h1.resolve_right hr)),
       fun hge => absurd hge (not_le.mpr
         (lt_of_lt_of_le (h1.resolve_right hr) (by norm_num)))⟩⟩
  · exact ⟨⟨fun heq => absurd heq (by decide), fun hcond => absurd hcond h1⟩,
      fun _ => ⟨fun _ => rfl, fun hge => absurd hge (not_le.mpr h2)⟩⟩
  · exact ⟨⟨fun heq => absurd heq (by decide), fun hcond => absurd hcond h1⟩,
      fun _ => ⟨fun hrange => absurd hrange.2 h2, fun _ => rfl⟩⟩

/-- Witness for C3 at the spec's concrete instances: confidence `0.49`
routes `immediate`, `0.79` routes `batch`, `0.95` routes `learning`,
and `critical_error` at `0.95` still routes `immediate`. -/
theorem C3_calculatePriority_spec_witness :
    CorrectionProcessor.calculatePriority ⟨⟨0.49⟩, "other"⟩ = .immediate ∧
    CorrectionProcessor.calculatePriority ⟨⟨0.79⟩, "other"⟩ = .batch ∧
    CorrectionProcessor.calculatePriority ⟨⟨0.95⟩, "other"⟩ = .learning ∧
    CorrectionProcessor.calculatePriority ⟨⟨0.95⟩, "critical_error"⟩ =
      .immediate :=
  ⟨(C3_calculatePriority_spec _).1.mpr (Or.inl (by norm_num)),
   ((C3_calculatePriority_spec _).2 (by decide)).1 ⟨by norm_num, by norm_num⟩,
   ((C3_calculatePriority_spec _).2 (by decide)).2 (by norm_num),
   (C3_calculatePriority_spec _).1.mpr (Or.inr rfl)⟩

/-- Claim C4 (confirmed).  `getAIPredictions` never surfaces an
exception to its caller: when the try-block body produces a structured
list it is returned as-is, and when the body throws (network failure,
JSON failure, malformed response) the error is swallowed and the caller
receives the fallback empty list — the function is total into plain
lists, so no caller-visible error exists. -/
theorem C4_getAIPredictions_never_raises (response : FetchOutcome) :
    (∀ v, getAIPredictionsBody response = .ok v →
      getAIPredictions response = v) ∧
    (∀ msg, getAIPredictionsBody response = .error msg →
      getAIPredictions response = []) := by
  cases response <;> refine ⟨fun v hv => ?_, fun msg hmsg => ?_⟩ <;>
    simp_all [getAIPredictions, getAIPredictionsBody]

/-- Witness for C4: a thrown fetch error and a throw from the
pass-through validator (a `null` prediction item) are both recovered to
the empty fallback list, and a well-shaped response is passed through
unchanged. -/
theorem C4_getAIPredictions_never_raises_witness :
    getAIPredictions (.jsError "network unreachable") = [] ∧
    getAIPredictions (.ok [.invalid]) = [] ∧
    getAIPredictions (.ok [.value ⟨"1", "Employee Name", "John Doe",
        0.98, .name, "ml_model"⟩]) =
      [⟨"1", "Employee Name", "John Doe", 0.98, .name, "ml_model"⟩] :=
  ⟨(C4_getAIPredictions_never_raises (.jsError "network unreachable")).2
      "network unreachable" rfl,
   (C4_getAIPredictions_never_raises (.ok [.invalid])).2
      "Invalid AI prediction data" rfl,
   (C4_getAIPredictions_never_raises (.ok [.value ⟨"1", "Employee Name",
      "John Doe", 0.98, .name, "ml_model"⟩])).1 _ rfl⟩

/-- Helper: every issue produced by the email validator has severity
`error`. -/
theorem email_errors_sev (s : String) :
    ∀ e ∈ (fieldValidators.email s).errors, e.severity = Severity.error := by
  simp only [fieldValidators.email]
  split_ifs <;> intro e he <;> simp_all

/-- Helper: every issue produced by the phone validator has severity
`error`. -/
theorem phone_errors_sev (s : String) :
    ∀ e ∈ (fieldValidators.phone s).errors, e.severity = Severity.error := by
  simp only [fieldValidators.phone]
  split_ifs <;> intro e he <;> simp_all

/-- Helper: every issue produced by the date validator has severity
`error`. -/
theorem date_errors_sev (s : String) :
    ∀ e ∈ (fieldValidators.date s).errors, e.severity = Severity.error := by
  simp only [fieldValidators.date]
  split_ifs <;> intro e he <;> simp_all

/-- Helper: every issue produced by the currency validator has severity
`error`. -/
theorem currency_errors_sev (s : String) :
    ∀ e ∈ (fieldValidators.currency s).errors, e.severity = Severity.error := by
  simp only [fieldValidators.currency]
  split_ifs <;> intro e he <;> simp_all

/-- Helper: every issue produced by the text validator has severity
`error`. -/
theorem text_errors_sev (s : String) (minL maxL : Option Nat) :
    ∀ e ∈ (fieldValidators.text s minL maxL).errors,
      e.severity = Severity.error := by
  have h : (fieldValidators.text s minL maxL).errors =
      (match minL with
       | some m => if m ≠ 0 ∧ s.length < m then
           [⟨"text", "TEXT_TOO_SHORT", .error⟩] else []
       | none => []) ++
      (match maxL with
       | some m => if m ≠ 0 ∧ s.length > m then
           [⟨"text", "TEXT_TOO_LONG", .error⟩] else []
       | none => []) := rfl
  intro e he
  rw [h] at he
  rcases List.mem_append.mp he with h1 | h1
  · cases minL with
    | none => simp at h1
    | some m => split at h1 <;> simp_all
  · cases maxL with
    | none => simp at h1
    | some m => split at h1 <;> simp_all

/-- Helper: every issue produced by `validateField` has severity
`error` (the field-name re-attribution keeps severities intact). -/
theorem validateField_errors_sev (f : ParsedField) :
    ∀ e ∈ (validateField f).errors, e.severity = Severity.error := by
  intro e he
  by_cases h : jsTrim f.value = ""
  · have hv : validateField f = ⟨true, some f, [], []⟩ := by
      unfold validateField
      rw [if_pos h]
    rw [hv] at he
    simp at he
  · have hv : (validateField f).errors =
        (let tv : ValidationResult String :=
          match f.type with
          | .email => fieldValidators.email f.value
          | .phone => fieldValidators.phone f.value
          | .date => fieldValidators.date f.value
          | .currency => fieldValidators.currency f.value
          | _ => fieldValidators.text f.value none none
        if !tv.isValid then
          tv.errors.map (fun e => { e with field := f.name })
        else []) := by
      unfold validateField
      rw [if_neg h]
    rw [hv] at he
    set tv : ValidationResult String :=
      match f.type with
      | .email => fieldValidators.email f.value
      | .phone => fieldValidators.phone f.value
      | .date => fieldValidators.date f.value
      | .currency => fieldValidators.currency f.value
      | _ => fieldValidators.text f.value none none with htv
    have hsub : ∀ e ∈ tv.errors, e.severity = Severity.error := by
      rw [htv]
      cases f.type
      case email => exact email_errors_sev f.value
      case phone => exact phone_errors_sev f.value
      case date => exact date_errors_sev f.value
      case currency => exact currency_errors_sev f.value
      all_goals exact text_errors_sev f.value none none
    by_cases hvalid : tv.isValid
    · simp [hvalid] at he
    · simp only [hvalid, Bool.not_false, if_pos] at he
      obtain ⟨e', he', rfl⟩ := List.mem_map.mp he
      exact hsub e' he'

/-- Helper: every issue produced by `validateUserCorrection` has
severity `error`. -/
theorem validateUserCorrection_errors_sev (c : UserCorrection) :
    ∀ e ∈ (validateUserCorrection c).errors, e.severity = Severity.error := by
  have h : (validateUserCorrection c).errors =
      (if !(validReasons.contains c.correctionReason) then
        [⟨"correctionReason", "INVALID_REASON", .error⟩] else []) ++
      (if c.correctedValue = c.originalPrediction.predictedValue then
        [⟨"correctedValue", "NO_CHANGE", .error⟩] else []) := rfl
  intro e he
  rw [h] at he
  rcases List.mem_append.mp he with h1 | h1 <;> (split at h1 <;> simp_all)

/-- Helper: `validateField` computes its accepted flag as emptiness of
its own issue list. -/
theorem validateField_isValid_eq (f : ParsedField) :
    (validateField f).isValid =
      decide ((validateField f).errors.length = 0) := by
  unfold validateField
  by_cases h : jsTrim f.value = "" <;> simp [h]

/-- Helper: `validateUserCorrection` computes its accepted flag as
emptiness of its own issue list. -/
theorem validateUserCorrection_isValid_eq (c : UserCorrection) :
    (validateUserCorrection c).isValid =
      decide ((validateUserCorrection c).errors.length = 0) := rfl

/-- Claim C5 (confirmed).  For both the field validator and the
user-correction validator, the accepted flag is true exactly when the
issue list contains zero severity-`error` (critical) issues; warnings
live in a separate list returned alongside and never affect
acceptance. -/
theorem C5_accepted_iff_no_critical (f : ParsedField) (c : UserCorrection) :
    ((validateField f).isValid = true ↔
      (validateField f).errors.filter
        (fun e => e.severity == Severity.error) = []) ∧
    ((validateUserCorrection c).isValid = true ↔
      (validateUserCorrection c).errors.filter
        (fun e => e.severity == Severity.error) = []) := by
  constructor
  · rw [validateField_isValid_eq f]
    exact valres_accepted_iff _ (validateField_errors_sev f)
  · rw [validateUserCorrection_isValid_eq c]
    exact valres_accepted_iff _ (validateUserCorrection_errors_sev c)

/-- Witness for C5: a well-formed date field is accepted (no critical
issue), and a no-op correction with a critical issue is not accepted. -/
theorem C5_accepted_iff_no_critical_witness :
    (validateField ⟨"3", "Effective Date", "2025-01-15", "January 15, 2025",
        0.92, .dates, .date, false⟩).isValid = true ∧
    (validateUserCorrection ⟨⟨"1", "Employee Name", "John Doe", 0.98,
        .name, "ml_model"⟩, "John Doe", "incorrect_value", "t0"⟩).isValid ≠
      true :=
  ⟨(C5_accepted_iff_no_critical ⟨"3", "Effective Date", "2025-01-15",
      "January 15, 2025", 0.92, .dates, .date, false⟩
      ⟨⟨"1", "Employee Name", "John Doe", 0.98, .name, "ml_model"⟩,
        "John Doe", "incorrect_value", "t0"⟩).1.mpr (by decide),
   fun h => absurd ((C5_accepted_iff_no_critical ⟨"3", "Effective Date",
      "2025-01-15", "January 15, 2025", 0.92, .dates, .date, false⟩
      ⟨⟨"1", "Employee Name", "John Doe", 0.98, .name, "ml_model"⟩,
        "John Doe", "incorrect_value", "t0"⟩).2.mp h) (by decide)⟩

/-- Counterexample for claim C6: two equal, parseable dates — a start
date that is not after the end date — fail `contractDates` (the source
rejects `start >= end`, not just `start > end`). -/
theorem C6_counterexample :
    (jsDateParse "2025-01-15").isSome = true ∧
    (businessRules.contractDates "2025-01-15" "2025-01-15").isValid =
      false := by
  exact ⟨rfl, rfl⟩

/-- Claim C6 (corrected).  For parseable dates, `contractDates`
succeeds exactly when the start date is strictly before the end date;
`start = end` is rejected with the same `INVALID_DATE_RANGE` error as
`start > end`. -/
theorem C6_contractDates_strict (s e : String) (a b : Nat)
    (hs : jsDateParse s = some a) (he : jsDateParse e = some b) :
    ((businessRules.contractDates s e).isValid = true ↔ a < b) := by
  unfold businessRules.contractDates
  rw [hs, he]
  show decide ((if a ≥ b then
      [(⟨"dates", "INVALID_DATE_RANGE", .error⟩ : ValidationError)]
      else []).length = 0) = true ↔ a < b
  split_ifs with hge <;> simp <;> omega

/-- Witness for C6 at a concrete strictly increasing pair of dates. -/
theorem C6_contractDates_strict_witness :
    (businessRules.contractDates "2025-01-15" "2025-06-15").isValid = true :=
  (C6_contractDates_strict "2025-01-15" "2025-06-15" _ _ rfl rfl).mpr
    (by decide)

/-- Counterexample for claim C7: when the submission throws (network
failure, bad response), `submitCorrection` hands the caller `null`
(`none`) instead of a structured result carrying the issues; and on
the non-throwing path it returns the raw response object unchanged —
never a computed `\x7baccepted, issues\x7d` result. -/
theorem C7_counterexample :
    submitCorrection (.value ⟨⟨"1", "Employee Name", "John Doe", 0.98,
        .name, "ml_model"⟩, "Jane Doe", "incorrect_value", "t0"⟩)
      (.jsError "network unreachable") = none ∧
    submitCorrection (.value ⟨⟨"1", "Employee Name", "John Doe", 0.98,
        .name, "ml_model"⟩, "Jane Doe", "incorrect_value", "t0"⟩)
      (.ok (.value ⟨⟨"1", "Employee Name", "John Doe", 0.98, .name,
        "ml_model"⟩, "Jane Doe", "incorrect_value", "t1"⟩)) =
      some ⟨⟨"1", "Employee Name", "John Doe", 0.98, .name,
        "ml_model"⟩, "Jane Doe", "incorrect_value", "t1"⟩ := by
  exact ⟨rfl, rfl⟩

/-- Claim C7 (corrected).  `submitCorrection` never computes an
acceptance status or issue list: its validators are the pass-throughs
of `utils/validation.js`.  On the non-throwing path (well-shaped input
correction, successful request, object-shaped response) the caller
receives the server's response data unchanged; when the input is
`null`/non-object, the request or response handling throws, or the
response is `null`/non-object, the catch clause hands the caller
`null`. -/
theorem C7_submitCorrection_raw_or_null (c : JsData UserCorrection)
    (r : PostOutcome) :
    (∀ cv d, c = .value cv → r = .ok (.value d) →
      submitCorrection c r = some d) ∧
    (∀ msg, r = .jsError msg → submitCorrection c r = none) ∧
    (r = .ok .invalid → submitCorrection c r = none) ∧
    (c = .invalid → submitCorrection c r = none) := by
  refine ⟨?_, ?_, ?_, ?_⟩
  · intro cv d hc hr
    subst hc
    subst hr
    rfl
  · intro msg hr
    subst hr
    cases c <;> rfl
  · intro hr
    subst hr
    cases c <;> rfl
  · intro hc
    subst hc
    rfl

/-- Witness for C7: a well-shaped response is returned unchanged, and
a `null` response body is recovered to `null`. -/
theorem C7_submitCorrection_raw_or_null_witness :
    submitCorrection (.value ⟨⟨"1", "Employee Name", "John Doe", 0.98,
        .name, "ml_model"⟩, "Jane Doe", "incorrect_value", "t0"⟩)
      (.ok (.value ⟨⟨"1", "Employee Name", "John Doe", 0.98, .name,
        "ml_model"⟩, "Jane Doe", "incorrect_value", "t1"⟩)) =
      some ⟨⟨"1", "Employee Name", "John Doe", 0.98, .name,
        "ml_model"⟩, "Jane Doe", "incorrect_value", "t1"⟩ ∧
    submitCorrection (.value ⟨⟨"1", "Employee Name", "John Doe", 0.98,
        .name, "ml_model"⟩, "Jane Doe", "incorrect_value", "t0"⟩)
      (.ok .invalid) = none :=
  ⟨(C7_submitCorrection_raw_or_null _ _).1 _ _ rfl rfl,
   (C7_submitCorrection_raw_or_null _ _).2.2.1 rfl⟩

/-- Counterexample for claim C8: a field whose history is non-empty but
holds a single version has no "version immediately preceding the
current latest", so a default rollback cannot append the target's value
— it fails, and the claim's "every field with non-empty history" is too
broad. -/
theorem C8_counterexample :
    VersionStore.rollback "field-1"
      [⟨"field-1", 0, "ACME Corp", 0.9, .prediction, 0, none⟩] none 1 =
      .error .versionNotFound := by
  exact rfl

/-- Claim C8 (corrected).  For every field with at least two versions,
a default rollback (no `targetVersionId`) targets the version
immediately preceding the current latest and appends — leaving the
pre-rollback history unchanged as a prefix — exactly one new version
whose value (and confidence) equal the target's, with
`producedBy = rollback` and a fresh monotonic version id linked to the
previous latest. -/
theorem C8_rollback_appends (fid : String)
    (h : List VersionStore.FieldVersion) (ts : Nat) (hlen : 2 ≤ h.length) :
    ∃ target, h.dropLast.getLast? = some target ∧
      VersionStore.rollback fid h none ts =
        .ok (h ++ [⟨fid, VersionStore.nextVersionId h, target.value,
          target.confidence, .rollback, ts,
          (h.getLast?).map (·.versionId)⟩]) := by
  have hne : h ≠ [] := by
    intro he
    rw [he] at hlen
    simp at hlen
  have hdlne : h.dropLast ≠ [] := by
    intro hd
    have h1 : h.dropLast.length = 0 := by rw [hd]; rfl
    rw [List.length_dropLast] at h1
    omega
  obtain ⟨target, ht⟩ :=
    Option.isSome_iff_exists.mp (List.getLast?_isSome.mpr hdlne)
  refine ⟨target, ht, ?_⟩
  unfold VersionStore.rollback VersionStore.rollbackTarget
  rw [ht]
  simp [hne, VersionStore.append]

/-- Witness for C8 at a concrete two-version history. -/
theorem C8_rollback_appends_witness :
    ∃ target, ([⟨"f", 0, "v0", 0.5, .prediction, 0, none⟩,
        ⟨"f", 1, "v1", 1, .correction, 1, some 0⟩] :
        List VersionStore.FieldVersion).dropLast.getLast? = some target ∧
      VersionStore.rollback "f"
        [⟨"f", 0, "v0", 0.5, .prediction, 0, none⟩,
         ⟨"f", 1, "v1", 1, .correction, 1, some 0⟩] none 2 =
        .ok ([⟨"f", 0, "v0", 0.5, .prediction, 0, none⟩,
          ⟨"f", 1, "v1", 1, .correction, 1, some 0⟩] ++
          [⟨"f", VersionStore.nextVersionId
            [⟨"f", 0, "v0", 0.5, .prediction, 0, none⟩,
             ⟨"f", 1, "v1", 1, .correction, 1, some 0⟩],
            target.value, target.confidence, .rollback, 2,
            (([⟨"f", 0, "v0", 0.5, .prediction, 0, none⟩,
               ⟨"f", 1, "v1", 1, .correction, 1, some 0⟩] :
              List VersionStore.FieldVersion).getLast?).map
              (·.versionId)⟩]) :=
  C8_rollback_appends "f"
    [⟨"f", 0, "v0", 0.5, .prediction, 0, none⟩,
     ⟨"f", 1, "v1", 1, .correction, 1, some 0⟩] 2 (by decide)

/-- Claim C9 (confirmed).  `validateAIPrediction` accepts only
confidences within `[0, 1]`: any prediction it accepts has confidence
in range; an out-of-range confidence yields a severity-`error` issue
and rejection; the bounds are inclusive (with a valid source, any
in-range confidence — `0` and `1` included — passes); and the
`ExtractedFieldSchema` bound accepts exactly `[0, 1]` as well. -/
theorem C9_confidence_range (p : AIPredictedField) :
    ((validateAIPrediction p).isValid = true →
      0 ≤ p.confidence ∧ p.confidence ≤ 1) ∧
    ((p.confidence < 0 ∨ 1 < p.confidence) →
      (validateAIPrediction p).isValid = false ∧
      ∃ e ∈ (validateAIPrediction p).errors,
        e.severity = Severity.error) ∧
    (validSources.contains p.source = true → 0 ≤ p.confidence →
      p.confidence ≤ 1 → (validateAIPrediction p).isValid = true) ∧
    (∀ q : ℚ, extractedFieldConfidenceOk q = true ↔ 0 ≤ q ∧ q ≤ 1) := by
  have hE : (validateAIPrediction p).errors =
      (if p.confidence < 0 ∨ p.confidence > 1 then
        [⟨"confidence", "INVALID_CONFIDENCE", .error⟩] else []) ++
      (if !(validSources.contains p.source) then
        [⟨"source", "INVALID_SOURCE", .error⟩] else []) := rfl
  have hI : (validateAIPrediction p).isValid =
      decide ((validateAIPrediction p).errors.length = 0) := rfl
  refine ⟨?_, ?_, ?_, ?_⟩
  · intro hvalid
    by_cases hc : p.confidence < 0 ∨ p.confidence > 1
    · rw [hI, hE] at hvalid
      simp [hc] at hvalid
    · push_neg at hc
      exact hc
  · intro hc
    constructor
    · rw [hI, hE]
      simp [hc]
    · rw [hE]
      refine ⟨⟨"confidence", "INVALID_CONFIDENCE", .error⟩, ?_, rfl⟩
      simp [hc]
  · intro hs h0 h1
    have hc : ¬(p.confidence < 0 ∨ p.confidence > 1) := by
      push_neg
      exact ⟨h0, h1⟩
    rw [hI, hE]
    simp [hc]
    simpa using hs
  · intro q
    simp [extractedFieldConfidenceOk]

/-- Witness for C9: confidence `0` and `1` are accepted, `3/2` is
rejected, and the schema bound holds at `1`. -/
theorem C9_confidence_range_witness :
    (validateAIPrediction ⟨"f", "l", "v", 0, .text, "regex"⟩).isValid =
      true ∧
    (validateAIPrediction ⟨"f", "l", "v", 1, .text, "regex"⟩).isValid =
      true ∧
    (validateAIPrediction ⟨"f", "l", "v", 3/2, .text,
      "regex"⟩).isValid = false ∧
    extractedFieldConfidenceOk 1 = true :=
  ⟨(C9_confidence_range ⟨"f", "l", "v", 0, .text, "regex"⟩).2.2.1 rfl
      (by norm_num) (by norm_num),
   (C9_confidence_range ⟨"f", "l", "v", 1, .text, "regex"⟩).2.2.1 rfl
      (by norm_num) (by norm_num),
   ((C9_confidence_range ⟨"f", "l", "v", 3/2, .text, "regex"⟩).2.1
      (Or.inr (by norm_num))).1,
   ((C9_confidence_range ⟨"f", "l", "v", 1, .text, "regex"⟩).2.2.2 1).mpr
      ⟨by norm_num, by norm_num⟩⟩

/-- Helper: the camel-casing scan passes over any character that is not
an underscore. -/
theorem camelKeyCodes_cons (c : Nat) (l : List Nat) (hc : c ≠ 95) :
    camelKeyCodes (c :: l) = c :: camelKeyCodes l := by
  cases l with
  | nil => rfl
  | cons d t =>
    have hcond : ¬(c = 95 ∧ 97 ≤ d ∧ d ≤ 122) := fun hx => hc hx.1
    simp [camelKeyCodes, hcond]

/-- Helper: a camelCase identifier consists of ASCII letters only. -/
theorem camelIdent_letters (k : List Nat) (hk : camelIdent k = true) :
    ∀ c ∈ k, isLetterCode c = true := by
  cases k with
  | nil => simp [camelIdent] at hk
  | cons c rest =>
    simp [camelIdent] at hk
    intro x hx
    rcases List.mem_cons.mp hx with rfl | hx'
    · simp [isLetterCode]
      omega
    · exact hk.2 x hx'

/-- Helper: camel-casing inverts snake-casing on keys made of ASCII
letters. -/
theorem camelKeyCodes_snakeKeyCodes (l : List Nat)
    (h : ∀ c ∈ l, isLetterCode c = true) :
    camelKeyCodes (snakeKeyCodes l) = l := by
  induction l with
  | nil => rfl
  | cons c rest ih =>
    have hc := h c (List.mem_cons_self c rest)
    have hrest := fun x hx => h x (List.mem_cons_of_mem c hx)
    simp [isLetterCode] at hc
    by_cases hup : 65 ≤ c ∧ c ≤ 90
    · have hstep : snakeKeyCodes (c :: rest) =
          95 :: (c + 32) :: snakeKeyCodes rest := by
        simp [snakeKeyCodes, hup]
      rw [hstep]
      have hcond : (95 : Nat) = 95 ∧ 97 ≤ c + 32 ∧ c + 32 ≤ 122 :=
        ⟨rfl, by omega, by omega⟩
      have hred : camelKeyCodes (95 :: (c + 32) :: snakeKeyCodes rest) =
          (c + 32 - 32) :: camelKeyCodes (snakeKeyCodes rest) := by
        simp only [camelKeyCodes]
        rw [if_pos (⟨trivial, hcond.2⟩ :
          True ∧ 97 ≤ c + 32 ∧ c + 32 ≤ 122)]
      rw [hred]
      have hsub : c + 32 - 32 = c := by omega
      rw [hsub, ih hrest]
    · have hlow : 97 ≤ c ∧ c ≤ 122 := by
        rcases hc with h1 | h1
        · exact absurd h1 hup
        · exact h1
      have hstep : snakeKeyCodes (c :: rest) = c :: snakeKeyCodes rest := by
        simp [snakeKeyCodes, hup]
      rw [hstep, camelKeyCodes_cons c _ (by omega), ih hrest]

mutual

/-- Helper: round trip on object entries under the amended
hypothesis. -/
theorem roundSnakeCamelObj :
    ∀ kvs, goodObj kvs = true → toCamelCase (toSnakeCase kvs) = kvs
  | [], _ => rfl
  | (k, v) :: rest, h => by
    have h' : (camelIdent k = true ∧ goodValue v = true) ∧
        goodObj rest = true := by
      simpa [goodObj, Bool.and_eq_true] using h
    show (camelKeyCodes (snakeKeyCodes k), camelValue (snakeValue v)) ::
        toCamelCase (toSnakeCase rest) = (k, v) :: rest
    rw [camelKeyCodes_snakeKeyCodes k (camelIdent_letters k h'.1.1),
      roundSnakeCamelVal v h'.1.2, roundSnakeCamelObj rest h'.2]

/-- Helper: round trip on values under the amended hypothesis. -/
theorem roundSnakeCamelVal :
    ∀ v, goodValue v = true → camelValue (snakeValue v) = v
  | .atom _, _ => rfl
  | .obj kvs, h => congrArg JValue.obj (roundSnakeCamelObj kvs h)
  | .arr xs, h => congrArg JValue.arr (roundSnakeCamelItems xs h)

/-- Helper: round trip on array items under the amended hypothesis. -/
theorem roundSnakeCamelItems :
    ∀ xs, goodItems xs = true → camelItems (snakeItems xs) = xs
  | [], _ => rfl
  | x :: rest, h => by
    have h' : goodItem x = true ∧ goodItems rest = true := by
      simpa [goodItems, Bool.and_eq_true] using h
    show camelItem (snakeItem x) :: camelItems (snakeItems rest) = x :: rest
    rw [roundSnakeCamelItem x h'.1, roundSnakeCamelItems rest h'.2]

/-- Helper: round trip on a single array item (no nested array). -/
theorem roundSnakeCamelItem :
    ∀ x, goodItem x = true → camelItem (snakeItem x) = x
  | .atom _, _ => rfl
  | .obj kvs, h => congrArg JValue.obj (roundSnakeCamelObj kvs h)
  | .arr _, h => absurd h (by simp [goodItem])

end

/-- Counterexample for claim C10: an object whose only key is the
camelCase identifier `a` (code 97) but whose value is an array holding
an (empty) array.  Every object key at every nesting level is
camelCase, yet the round trip does not return the original object:
`toSnakeCase` turns the inner array into a plain object keyed by its
indices, which `toCamelCase` leaves as an object. -/
theorem C10_counterexample :
    claimKeysObj [([97], JValue.arr [JValue.arr []])] = true ∧
    toCamelCase (toSnakeCase [([97], JValue.arr [JValue.arr []])]) ≠
      [([97], JValue.arr [JValue.arr []])] := by
  refine ⟨rfl, ?_⟩
  intro hx
  have h1 : ([([97], JValue.arr [JValue.obj []])] :
      List (List Nat × JValue)) = [([97], JValue.arr [JValue.arr []])] := hx
  injection h1 with hp _
  injection hp with _ h2
  injection h2 with h3
  injection h3 with h4 _
  exact JValue.noConfusion h4

/-- Claim C10 (corrected).  The snake/camel round trip is the identity
on objects whose keys (at all nesting levels) are camelCase ASCII
identifiers, provided additionally that no array directly contains an
array (array elements are primitives or objects): converting an array
nested in an array turns it into an index-keyed object, which the
counterexample shows is not restored. -/
theorem C10_roundtrip (kvs : List (List Nat × JValue))
    (h : goodObj kvs = true) : toCamelCase (toSnakeCase kvs) = kvs :=
  roundSnakeCamelObj kvs h

/-- Witness for C10 at a concrete nested object
`\x7babC: \x7bdeF: 5\x7d, fj: [1, \x7bgH: 2\x7d]\x7d`. -/
theorem C10_roundtrip_witness :
    toCamelCase (toSnakeCase
      [([97, 98, 67], JValue.obj [([100, 101, 70], JValue.atom 5)]),
       ([102, 106], JValue.arr [JValue.atom 1,
         JValue.obj [([103, 72], JValue.atom 2)]])]) =
      [([97, 98, 67], JValue.obj [([100, 101, 70], JValue.atom 5)]),
       ([102, 106], JValue.arr [JValue.atom 1,
         JValue.obj [([103, 72], JValue.atom 2)]])] :=
  C10_roundtrip
    [([97, 98, 67], JValue.obj [([100, 101, 70], JValue.atom 5)]),
     ([102, 106], JValue.arr [JValue.atom 1,
       JValue.obj [([103, 72], JValue.atom 2)]])] rfl
